import Mathlib

/-!
Verification of the NeoMutt expando renderer (`src/muttlib.c`,
`mutt_expando_format`) and the growable string buffer (`src/mutt/buffer.c`),
via a shallow embedding.  Byte strings are `List Nat` (one entry per byte);
C strings are terminated implicitly by the end of the list, and an embedded
zero byte acts as a terminator wherever the C code takes a `strlen` or
duplicates a string.  `size_t`/`int` quantities are `Nat`, with the C
wrap-around of unsigned subtraction modelled explicitly (`sizeTSub`) where
the source can underflow.
-/

/-- The logical C string held in a byte list: everything before the first
zero byte (`strlen`-style view). -/
def cstr (l : List Nat) : List Nat :=
  l.takeWhile (fun b => b != 0)

/-- `mutt_str_strlen`: length of the C string in `l`. -/
def muttStrlen (l : List Nat) : Nat :=
  (cstr l).length

/-- `size_t` subtraction `a - b` as the C code performs it: wraps modulo
2^64 when `b > a`. -/
def sizeTSub (a b : Nat) : Nat :=
  if b ≤ a then a - b else 2 ^ 64 - (b - a)

/-- Overwrite the bytes of `d` starting at offset `i` with `xs`
(`memcpy(d + i, xs, |xs|)`).  In-bounds writes (`i + |xs| ≤ |d|`) keep the
length of `d`. -/
def listWrite (d : List Nat) (i : Nat) (xs : List Nat) : List Nat :=
  d.take i ++ xs ++ d.drop (i + xs.length)

/-- `realloc(data, newsize)`: keeps the first `min |d| newsize` bytes; any
fresh bytes are uninitialized, modelled as the junk value 170. -/
def bufGrow (d : List Nat) (newsize : Nat) : List Nat :=
  d.take newsize ++ List.replicate (newsize - d.length) 170

/-- `struct Buffer { char *data; char *dptr; size_t dsize; }`.
`data = none` models a NULL `data` pointer; `off` is the cursor offset
`dptr - data`.  The allocation behind `data` is the whole list `d`
(its length can exceed `dsize`: `mutt_buffer_from` allocates
`strlen(seed) + 1` bytes but records `dsize = strlen(seed)`). -/
structure Buffer where
  data : Option (List Nat)
  dsize : Nat
  off : Nat
deriving Repr, DecidableEq

/-- `mutt_buffer_init`: zero-initialise (NULL data, zero size, cursor 0). -/
def mutt_buffer_init : Buffer :=
  { data := none, dsize := 0, off := 0 }

/-- `mutt_buffer_reinit`: free the storage, then init. -/
def mutt_buffer_reinit (_b : Buffer) : Buffer :=
  mutt_buffer_init

/-- `mutt_buffer_seek`: `dptr = data + off`; no bounds check. -/
def mutt_buffer_seek (b : Buffer) (off : Nat) : Buffer :=
  { b with off := off }

/-- `mutt_buffer_rewind`: `seek 0`. -/
def mutt_buffer_rewind (b : Buffer) : Buffer :=
  mutt_buffer_seek b 0

/-- `mutt_buffer_reset`: `memset(data, 0, dsize)` then rewind.  (On a NULL
`data` the memset has size `dsize`; reachable states have `dsize = 0`
there, so the model leaves `none` unchanged.) -/
def mutt_buffer_reset (b : Buffer) : Buffer :=
  { b with
    data := b.data.map (fun d => List.replicate (min b.dsize d.length) 0 ++ d.drop b.dsize),
    off := 0 }

/-- `mutt_buffer_from`: `data = strdup(seed)` (which allocates
`strlen(seed) + 1` bytes, the terminator included), `dsize = strlen(seed)`,
cursor at the end.  The result does not depend on the previous contents
(`mutt_buffer_init` is called first), so the old buffer is not a
parameter. -/
def mutt_buffer_from (seed : List Nat) : Buffer :=
  { data := some (cstr seed ++ [0]),
    dsize := muttStrlen seed,
    off := muttStrlen seed }

/-- Growth increment used by `mutt_buffer_add`:
`(len < 128) ? 128 : len + 1`. -/
def addGrowIncrement (len : Nat) : Nat :=
  if len < 128 then 128 else len + 1

/-- Growth step of `mutt_buffer_add` (lines 116-122): if
`dptr + len + 1 > data + dsize`, i.e. `off + len + 1 > dsize`, grow
`dsize` by `addGrowIncrement len` and reallocate, preserving the cursor
offset. -/
def addGrown (b : Buffer) (len : Nat) : Buffer :=
  if b.off + len + 1 > b.dsize then
    { data := some (bufGrow (b.data.getD []) (b.dsize + addGrowIncrement len)),
      dsize := b.dsize + addGrowIncrement len, off := b.off }
  else b

/-- `mutt_buffer_add(buf, s, len)`: grow if needed (`addGrown`), copy
`len` bytes at the cursor, advance the cursor, write the terminator.  The
NULL-`buf`/NULL-`s` early return is outside the model (both are structures
here); the `!buf->dptr` guard is kept (it corresponds to a still-NULL
`data`). -/
def mutt_buffer_add (b : Buffer) (s : List Nat) (len : Nat) : Buffer :=
  let b2 := addGrown b len
  match b2.data with
  | none => b2
  | some d =>
    let d2 := listWrite d b2.off (s.take len)
    let d3 := listWrite d2 (b2.off + len) [0]
    { data := some d3, dsize := b2.dsize, off := b2.off + len }

/-- `mutt_buffer_addstr`: `add(buf, s, mutt_str_strlen(s))`. -/
def mutt_buffer_addstr (b : Buffer) (s : List Nat) : Buffer :=
  mutt_buffer_add b s (muttStrlen s)

/-- `mutt_buffer_addch`: `add(buf, &c, 1)`. -/
def mutt_buffer_addch (b : Buffer) (c : Nat) : Buffer :=
  mutt_buffer_add b [c] 1

/-- First half of `mutt_buffer_printf` (lines 148-160): rewind if `dptr`
is NULL, and if the remaining block length `dsize - doff` is zero, grow by
128 bytes and reseek. -/
def printfPrep (b : Buffer) : Buffer :=
  let b1 := if b.data.isNone then { b with off := 0 } else b
  if (b1.dsize : Int) - (b1.off : Int) = 0 then
    { data := some (bufGrow (b1.data.getD []) (b1.dsize + 128)),
      dsize := b1.dsize + 128, off := b1.off }
  else b1

/-- The block length `blen` available to the first `vsnprintf` after
`printfPrep` (128 when the zero-block fixup ran). -/
def printfBlen (b : Buffer) : Int :=
  let b1 := if b.data.isNone then { b with off := 0 } else b
  if (b1.dsize : Int) - (b1.off : Int) = 0 then 128 else (b1.dsize : Int) - (b1.off : Int)

/-- `mutt_buffer_printf(buf, fmt, ...)`, with `vsnprintf` abstracted: `s`
is the full formatted text the format expansion denotes (what `vsnprintf`
would produce given unbounded room; its return value is `|s|`).  If the
text did not fit (`len >= blen`), the code grows by
`max 128 (len + 1 - blen)` and retries with room `len + 1`, so the retry
writes `s` whole; the first, truncated `vsnprintf` write is then
overwritten, so only the final write is modelled.  The cursor advances by
`len` when `len > 0`. -/
def mutt_buffer_printf (b : Buffer) (s : List Nat) : Buffer :=
  let b2 := printfPrep b
  let blen := printfBlen b
  let doff := b2.off
  let len := s.length
  let b3 :=
    if (len : Int) ≥ blen then
      let inc0 : Int := (len : Int) + 1 - blen
      let inc : Int := if inc0 < 128 then 128 else inc0
      let ns := b2.dsize + inc.toNat
      { data := some (listWrite (bufGrow (b2.data.getD []) ns) doff (s ++ [0])),
        dsize := ns, off := doff }
    else
      { b2 with data := some (listWrite (b2.data.getD []) doff (s ++ [0])) }
  if len > 0 then { b3 with off := doff + len } else b3

/-- Logical content of a buffer: the bytes before the cursor. -/
def bufContent (b : Buffer) : List Nat :=
  (b.data.getD []).take b.off

/-- Reachable-state invariant of the Buffer operations (the amended form of
the specification's invariant): either the buffer is the zero-initialised
empty one, or the cursor offset is at most `dsize` (equality occurs for
`mutt_buffer_from` results), the allocation holds at least `dsize` bytes
and strictly more than `off` bytes, and the allocation contains a zero
terminator at or after the cursor. -/
def goodBuf (b : Buffer) : Bool :=
  match b.data with
  | none => b.off == 0 && b.dsize == 0
  | some d =>
    decide (b.off ≤ b.dsize) && decide (b.dsize ≤ d.length) &&
    decide (b.off < d.length) && (d.drop b.off).contains 0

/-! ## `mutt_expando_format` (src/muttlib.c lines 893-1398)

The renderer is embedded at the level of the final buffer contents: the
functions below return the C string left in `buf` (the bytes before the
terminating zero the function writes).  External collaborators and the
width helper (which lives elsewhere in the repository, outside `src/`) are
either modelled from the spec or carried in an explicit environment. -/

/-- Modelled from the spec: `mutt_mb_charlen` (the Width/Truncation
Helper's `char_len`), which is not under `src/`.  A single-byte locale:
byte values 1..127 are valid one-byte, one-column characters; byte values
at and above 128 are invalid sequences (negative length, the renderer then
substitutes one byte of width one); end of input / NUL yields 0. -/
def mutt_mb_charlen (s : List Nat) : Int × Nat :=
  match s with
  | [] => (0, 0)
  | c :: _ => if c == 0 then (0, 0) else if c < 128 then (1, 1) else (-1, 0)

/-- Modelled from the spec: `mutt_strwidth` (`string_width`), the sum of
the display widths of the characters of the C string; in the single-byte
locale of this model every byte has width one, so it equals the string
length. -/
def mutt_strwidth (s : List Nat) : Nat := muttStrlen s

/-- Modelled from the spec: `mutt_wstr_trunc(src, maxlen, maxwid, &width)`
(`truncate`): the longest whole-character prefix with byte length at most
`maxlen` and display width at most `maxwid`; returns (bytes, width).  In
the single-byte locale both components are
`min (min (strlen src) maxlen) maxwid`. -/
def mutt_wstr_trunc (s : List Nat) (maxlen maxwid : Nat) : Nat × Nat :=
  let n := min (min (muttStrlen s) maxlen) maxwid
  (n, n)

/-- The `MUTT_FORMAT_*` flag bits read by `mutt_expando_format`. -/
structure FmtFlags where
  arrowCursor : Bool
  noFilter : Bool
  optionalF : Bool
deriving Repr, DecidableEq

/-- External collaborators and ambient state of one render call.
`arrowOpt` is `option(OPT_ARROW_CURSOR)`.  `tmpInit`, `ifsInit`, `elsInit`
are the initial (uninitialized) contents of the stack arrays `tmp`,
`if_str`, `else_str`.  `callback` is the `format_t` Field Callback; the C
callback returns a pointer into the remaining template, modelled as the
number of bytes it consumed.  `filterSpawn` models
`mutt_create_filter` + `fread` + `mutt_wait_filter`: `none` is a spawn
failure, otherwise the full stream contents and the exit status (a read
error surfaces as empty contents, which is how the code observes it). -/
structure FmtEnv where
  arrowOpt : Bool
  tmpInit : List Nat
  ifsInit : List Nat
  elsInit : List Nat
  callback : Nat → Nat → Nat → Nat → List Nat → List Nat → List Nat → List Nat → Nat → FmtFlags → List Nat × Nat
  filterSpawn : List Nat → Option (List Nat × Int)

/-- State of the main scan: bytes written so far (`buf[0..wlen)` with
`wptr = buf + wlen` — the two move in lockstep), and the current screen
column. -/
structure ScanSt where
  acc : List Nat
  wlen : Nat
  col : Nat
deriving Repr, DecidableEq

/-- `\x`-escape substitution (lines 1346-1366). -/
def escByte (c : Nat) : Nat :=
  if c == 110 then 10 else if c == 116 then 9 else if c == 114 then 13
  else if c == 102 then 12 else if c == 118 then 11 else c

/-- Per-byte `tolower` (`mutt_str_strlower`). -/
def lowerByte (c : Nat) : Nat := if 65 ≤ c ∧ c ≤ 90 then c + 32 else c

/-- `pad = (cols - col - wid) / pw` (line 1221).  `col` and `wid` are
`size_t`, so C evaluates the subtraction in `size_t` and truncates the
quotient to `int`; for the realizable fill-character widths (1 and 2) the
deficit case comes out as `-ceil((col + wid - cols) / pw)`, which is what
this models. -/
def padCalc (cols col wid pw : Nat) : Int :=
  if col + wid ≤ cols then ((cols - col - wid) / pw : Nat)
  else -(((col + wid - cols) + (pw - 1)) / pw : Nat)

/-- Emit `n` copies of the fill character (`while (pad-- > 0)` loop,
lines 1239-1245): `pl` bytes and `pw` columns per copy. -/
def padEmit (st : ScanSt) (fill : List Nat) (pl pw n : Nat) : ScanSt :=
  { acc := st.acc ++ (List.replicate n fill).flatten,
    wlen := st.wlen + n * pl, col := st.col + n * pw }

/-- Body of the `%>` / `%*` right-justify directive (lines 1214-1274),
given the already-rendered remainder `tmp`; `fill` is the `pl` bytes of
the fill character, `arrow` is the effective arrow-cursor reservation.
Returns the state after the directive (the scan then terminates). -/
def padDirKernel (soft : Bool) (fill : List Nat) (pl pw : Nat) (tmp : List Nat)
    (buflen cols : Nat) (arrow : Bool) (st : ScanSt) : ScanSt :=
  let len := muttStrlen tmp
  let wid := mutt_strwidth tmp
  let pad := padCalc cols st.col wid pw
  let (st1, len1, wid1) :=
    if pad ≥ 0 then
      let p := pad.toNat
      if st.wlen + p * pl + len > buflen then
        let p2 := if buflen > st.wlen + len then (buflen - st.wlen - len) / pl else 0
        (padEmit st fill pl pw p2, len, wid)
      else
        let k := min (cols - (st.col + p * pw + wid)) (buflen - (st.wlen + p * pl + len))
        let stSp : ScanSt := { acc := st.acc ++ List.replicate k 32,
                               wlen := st.wlen + k, col := st.col + k }
        (padEmit stSp fill pl pw p, len, wid)
    else if soft then
      let offset := if arrow then 3 else 0
      let avail := if cols > offset then cols - offset else 0
      let (len2, wid2) := mutt_wstr_trunc tmp buflen avail
      let (wlen2, col2) := mutt_wstr_trunc st.acc (sizeTSub buflen len2) (sizeTSub avail wid2)
      let k := min (avail - (col2 + wid2)) (buflen - (wlen2 + len2))
      let stL : ScanSt := { acc := st.acc.take wlen2 ++ List.replicate k 32,
                            wlen := wlen2 + k, col := col2 + k }
      (stL, len2, wid2)
    else (st, len, wid)
  let len3 := if len1 + st1.wlen > buflen then
      (mutt_wstr_trunc tmp (sizeTSub buflen st1.wlen) (sizeTSub cols st1.col)).1
    else len1
  { acc := st1.acc ++ tmp.take len3, wlen := st1.wlen + len3, col := st1.col + wid1 }

/-- The `%?..?..&..?` to `%<..?..&..>` in-place rewrite (lines 1054-1074),
applied to the bytes after the first `?` (which became `<`): keep the next
`?`, then turn the one after it into `>`. -/
def replQafter : List Nat → List Nat
  | [] => []
  | c :: r => if c == 63 then 62 :: r else c :: replQafter r

/-- Second half of the legacy-conditional rewrite: scan to the first `?`,
keep it, then replace the following `?` by `>`. -/
def rewriteCondTail : List Nat → List Nat
  | [] => []
  | c :: r => if c == 63 then c :: replQafter r else c :: rewriteCondTail r

/-- Prefix scan in non-optional mode (lines 1095-1103): digits, `.`, `-`,
`=`, at most `sizeof((char[128]) prefix)` characters. -/
def eatPrefixFmt : List Nat → Nat → List Nat × List Nat
  | [], _ => ([], [])
  | c :: rest, count =>
    if count < 128 ∧ ((48 ≤ c ∧ c ≤ 57) ∨ c == 46 ∨ c == 45 ∨ c == 61) then
      let pr := eatPrefixFmt rest (count + 1)
      (c :: pr.1, pr.2)
    else ([], c :: rest)

/-- Prefix scan in optional mode (lines 1082-1088): anything up to `?`, at
most 128 characters.  The C loop does not test for the terminator and can
walk past the end of the template into the NUL padding of the scratch
copy; the model stops at end of input, after which the mandatory
`*src != '?'` check fails either way. -/
def eatPrefixOptQ : List Nat → Nat → List Nat × List Nat
  | [], _ => ([], [])
  | c :: rest, count =>
    if count < 128 ∧ c != 63 then
      let pr := eatPrefixOptQ rest (count + 1)
      (c :: pr.1, pr.2)
    else ([], c :: rest)

/-- Branch scan of a conditional (lines 1120-1154 and, with the carried-in
balance, 1156-1192): returns the copied branch text, the rest of the
template (the terminating `>` or `&` not consumed), and the final nesting
balance.  An escape copies the next character and, through the shared loop
tail, the one after it as well, consuming three bytes per iteration but
counting one; `%>` is copied as two characters; `%<` raises and a bare `>`
lowers the balance.  Reads past the end of input are the NUL padding of
the scratch copy, modelled as byte 0. -/
def parseCondBranch : List Nat → Nat → Int → List Nat × List Nat × Int
  | src, count, lrb =>
    if ¬ (lrb > 0 ∧ count < 128) then ([], src, lrb)
    else match src with
    | [] => ([], [], lrb)
    | 37 :: 62 :: rest2 =>
      let pr := parseCondBranch rest2 (count + 2) lrb
      (37 :: 62 :: pr.1, pr.2.1, pr.2.2)
    | [92] => ([0, 0], [], lrb)
    | 92 :: e :: [] => ([e, 0], [], lrb)
    | 92 :: e :: t :: rest3 =>
      if lrb == 1 ∧ t == 38 then ([e], t :: rest3, lrb)
      else
        let pr := parseCondBranch rest3 (count + 1) lrb
        (e :: t :: pr.1, pr.2.1, pr.2.2)
    | c :: rest =>
      let lrb2 := if c == 37 ∧ rest.headD 0 == 60 then lrb + 1
                  else if c == 62 then lrb - 1 else lrb
      if lrb2 == 0 then ([], c :: rest, lrb2)
      else if lrb2 == 1 ∧ c == 38 then ([], c :: rest, lrb2)
      else
        let pr := parseCondBranch rest (count + 1) lrb2
        (c :: pr.1, pr.2.1, pr.2.2)

/-- Modifier consumption before the Field Callback dispatch (lines
1309-1317): eat `_` (lowercase) and `:` (dot-stripping), re-reading the
directive character from the template. -/
def eatModifiers : Nat → List Nat → Bool → Bool → Bool × Bool × Nat × List Nat
  | ch, src, lo, dots =>
    if ch == 95 ∨ ch == 58 then
      let lo2 := lo || ch == 95
      let dots2 := dots || ch == 58
      match src with
      | [] => (lo2, dots2, 0, [])
      | c :: r => eatModifiers c r lo2 dots2
    else (lo, dots, ch, src)

/-- Trailing-newline strip of the captured filter output
(lines 991-992). -/
def stripTrailNL (l : List Nat) : List Nat :=
  (l.reverse.dropWhile (fun b => b == 10 || b == 13)).reverse

/-- Number of consecutive backslashes at the end of `l`. -/
def trailingBackslashes (l : List Nat) : Nat :=
  (l.reverse.takeWhile (fun b => b == 92)).length

/-- The pipe pre-scan condition (lines 917-929): the template is longer
than one byte, ends in `|`, and the run of backslashes directly before the
pipe has even length (`off = n - run`, pipe real iff `off > 0` and
`(n - off)` even).  The C scan reads the byte before the template when
everything before the pipe is a backslash; the model stops at the start of
the template. -/
def pipeTriggers (src : List Nat) : Bool :=
  let n := src.length
  if n > 1 ∧ src.getLastD 0 == 124 then
    (trailingBackslashes (src.take (n - 1))) % 2 == 0
  else false

/-- Whitespace splitter used by the tokenizer model. -/
def splitWS : List Nat → List Nat → List (List Nat)
  | [], cur => if cur.isEmpty then [] else [cur.reverse]
  | c :: r, cur =>
    if c == 32 ∨ c == 9 then
      if cur.isEmpty then splitWS r [] else cur.reverse :: splitWS r []
    else splitWS r (c :: cur)

/-- Modelled from the spec: the pre-scan tokenization ("tokenize the
remainder using the same whitespace/quote-aware token extraction used for
command-line parsing"; `mutt_extract_token` / `MoreArgs` are not under
`src/`).  Whitespace splitting only: the extracted token text never flows
into the built command line (see `pipeCommand`), so beyond the token count
nothing of it is observable; the do-while extraction loop always runs at
least once, so a blank remainder still yields one empty token. -/
def muttTokenize (l : List Nat) : List (List Nat) :=
  match splitWS l [] with
  | [] => [[]]
  | ts => ts

/-- Shell quoting of one byte inside the single-quoted span
(lines 958-968): a single quote becomes `'"'"'`. -/
def shellQuoteByte (b : Nat) : List Nat :=
  if b == 39 then [39, 34, 39, 34, 39] else [b]

/-- The command line built by the pipe pre-scan loop (lines 947-971).  Per
extracted token the code appends `'`, then the shell-quoted bytes of the C
string in `tmp`, then `' `.  The recursive render of the token
(line 956) writes into `buf` — the caller's output buffer — with capacity
`sizeof(buf)` = `sizeof(char *)`, not into `tmp`; `tmp` is never written
in this loop, so the quoted span is the uninitialized `tmpInit` contents
and the rendered token text never reaches the command. -/
def pipeCommand (env : FmtEnv) (toks : List (List Nat)) : List Nat :=
  toks.flatMap (fun _tok =>
    39 :: (((cstr env.tmpInit).flatMap shellQuoteByte) ++ [39, 32]))

/-- Dispatch on the directive character `ch` (lines 1200-1340), after the
prefix and any conditional branches have been read; `srcD` is the template
after the directive character.  `Sum.inl out` means the scan terminates
with final contents `out` (the `break` cases); `Sum.inr (st, src)` means
the scan continues.  `rsub` performs a recursive render
(capacity, start column, template, flags). -/
def dispatchFmt (env : FmtEnv) (rsub : Nat → Nat → List Nat → FmtFlags → List Nat)
    (buflen cols data : Nat) (flags : FmtFlags) (ch : Nat)
    (pre bIf bEls : List Nat) (st : ScanSt) (srcD : List Nat) :
    List Nat ⊕ (ScanSt × List Nat) :=
  if ch == 62 ∨ ch == 42 then
    let soft := ch == 42
    let cl := mutt_mb_charlen srcD
    let pl := if cl.1 ≤ 0 then 1 else cl.1.toNat
    let pw := if cl.1 ≤ 0 then 1 else cl.2
    let st2 :=
      if (st.col < cols ∧ st.wlen < buflen) ∨ soft then
        padDirKernel soft (srcD.take pl) pl pw
          (rsub 1024 0 (srcD.drop pl) flags) buflen cols
          (flags.arrowCursor && env.arrowOpt) st
      else st
    Sum.inl st2.acc
  else if ch == 124 then
    let cl := mutt_mb_charlen srcD
    let pl := if cl.1 ≤ 0 then 1 else cl.1.toNat
    let pw := if cl.1 ≤ 0 then 1 else cl.2
    let st2 :=
      if st.col < cols ∧ st.wlen < buflen then
        let c0 := (cols - st.col) / pw
        let c1 := if c0 > 0 ∧ st.wlen + c0 * pl > buflen then (buflen - st.wlen) / pl else c0
        { acc := st.acc ++ (List.replicate c1 (srcD.take pl)).flatten,
          wlen := st.wlen + c1 * pl, col := st.col + c1 * pw }
      else st
    Sum.inl st2.acc
  else
    let m := eatModifiers ch srcD false false
    let lo := m.1
    let dots := m.2.1
    let ch2 := m.2.2.1
    let srcD2 := m.2.2.2
    let cb := env.callback 1024 st.col cols ch2 srcD2 pre bIf bEls data flags
    let tmp0 := cb.1.take 1023
    let tmp1 := if lo then tmp0.map lowerByte else tmp0
    let tmp := if dots then tmp1.map (fun b => if b == 46 then 95 else b) else tmp1
    let len0 := muttStrlen tmp
    let len := if len0 + st.wlen > buflen then
        (mutt_wstr_trunc tmp (sizeTSub buflen st.wlen) (sizeTSub cols st.col)).1
      else len0
    Sum.inr ({ acc := st.acc ++ tmp.take len, wlen := st.wlen + len,
               col := st.col + mutt_strwidth tmp }, srcD2.drop cb.2)

/-- The main scan loop `while (*src && wlen < buflen)` (lines 1041-1396),
returning the final C string in `buf` (the trailing `*wptr = 0` makes that
`st.acc`).  `ifs`/`els` are the current contents of the `if_str` /
`else_str` arrays (only optional directives overwrite them; plain
directives pass the stale contents to the callback).  One unit of `lfuel`
is spent per iteration: the callback may refuse to consume input, in which
case the C loop does not terminate either. -/
def scanFmt (env : FmtEnv) (rsub : Nat → Nat → List Nat → FmtFlags → List Nat)
    (buflen cols data : Nat) :
    Nat → FmtFlags → List Nat → List Nat → ScanSt → List Nat → List Nat
  | 0, _, _, _, st, _ => st.acc
  | _ + 1, _, _, _, st, [] => st.acc
  | lfuel + 1, flags, ifs, els, st, c :: rest =>
    if ¬ st.wlen < buflen then st.acc
    else if c == 37 then
      match rest with
      | 37 :: rest2 =>
        scanFmt env rsub buflen cols data lfuel flags ifs els
          { acc := st.acc ++ [37], wlen := st.wlen + 1, col := st.col + 1 } rest2
      | _ =>
        let rest1 := if rest.headD 0 == 63 then 60 :: rewriteCondTail rest.tail else rest
        if rest1.headD 0 == 60 then
          let flags1 : FmtFlags := { flags with optionalF := true }
          let ch := rest1.tail.headD 0
          let pr := eatPrefixOptQ rest1.tail.tail 0
          if pr.2.headD 0 != 63 then st.acc
          else
            let bi := parseCondBranch pr.2.tail 0 1
            let s5 := if bi.2.1.headD 0 == 38 then bi.2.1.tail else bi.2.1
            let be := parseCondBranch s5 0 bi.2.2
            if be.2.1.isEmpty then st.acc
            else
              match dispatchFmt env rsub buflen cols data flags1 ch pr.1 bi.1 be.1 st be.2.1.tail with
              | Sum.inl out => out
              | Sum.inr cont =>
                scanFmt env rsub buflen cols data lfuel flags1 bi.1 be.1 cont.1 cont.2
        else
          let flags1 : FmtFlags := { flags with optionalF := false }
          let pr := eatPrefixFmt rest1 0
          match pr.2 with
          | [] => st.acc
          | ch :: s3 =>
            match dispatchFmt env rsub buflen cols data flags1 ch pr.1 ifs els st s3 with
            | Sum.inl out => out
            | Sum.inr cont =>
              scanFmt env rsub buflen cols data lfuel flags1 ifs els cont.1 cont.2
    else if c == 92 then
      match rest with
      | [] => st.acc
      | e :: rest2 =>
        scanFmt env rsub buflen cols data lfuel flags ifs els
          { acc := st.acc ++ [escByte e], wlen := st.wlen + 1, col := st.col + 1 } rest2
    else
      let cl := mutt_mb_charlen (c :: rest)
      let bytes := if cl.1 ≤ 0 then 1 else cl.1.toNat
      let width := if cl.1 ≤ 0 then 1 else cl.2
      if 0 < bytes ∧ st.wlen + bytes < buflen then
        scanFmt env rsub buflen cols data lfuel flags ifs els
          { acc := st.acc ++ (c :: rest).take bytes, wlen := st.wlen + bytes,
            col := st.col + width } ((c :: rest).drop bytes)
      else st.acc

/-- Processing of the captured filter stream `o` (lines 983-1019): read at
most `buflen` bytes, strip trailing newlines and carriage returns, and if
exactly one unescaped `%` ends the result, strip it and recycle the
remaining C string through the renderer (`recycle`); a doubled `%%` is
left as a literal `%` and not recycled.  An empty read (the read-error
case included) leaves the buffer zero-terminated at the start, that is,
empty. -/
def pipeCapture (recycle : List Nat → List Nat) (buflen : Nat) (o : List Nat) : List Nat :=
  let captured := o.take buflen
  if captured.length > 0 then
    let stripped := stripTrailNL captured
    if stripped.length > 0 ∧ stripped.getLastD 0 == 37 then
      let s4 := stripped.dropLast
      if s4.length > 0 ∧ s4.getLastD 0 != 37 then recycle (cstr s4)
      else cstr s4
    else cstr stripped
  else []

/-- `mutt_expando_format(buf, buflen, col, cols, src, callback, data,
flags)`, returning the C string left in `buf`.  `buflen0` is the passed-in
capacity; the code reserves one byte for the terminator up front
(`buflen--`).  The pipe pre-scan (lines 913-1038) runs first; otherwise the
main scan does.  Fuel bounds the recursion (right-justify remainders,
filter recycling, scan iterations); the C recursion is unbounded in the
same places (a filter that keeps producing `%`-terminated output recurses
indefinitely). -/
def renderFmt : Nat → FmtEnv → Nat → Nat → Nat → List Nat → Nat → FmtFlags → List Nat
  | 0, _, _, _, _, _, _, _ => []
  | fuel + 1, env, buflen0, col0, cols, src0, data, flags =>
    let src := cstr src0
    let buflen := buflen0 - 1
    let wlen0 := if flags.arrowCursor && env.arrowOpt then 3 else 0
    if ¬ flags.noFilter ∧ pipeTriggers src then
      let srccopy := src.take (src.length - 1)
      let cmd := pipeCommand env (muttTokenize srccopy)
      match env.filterSpawn cmd with
      | none => []
      | some out =>
        pipeCapture (fun r => renderFmt fuel env (buflen + 1) col0 cols r data flags)
          buflen out.1
    else
      scanFmt env (fun cap c s f => renderFmt fuel env cap c cols s data f)
        buflen cols data fuel flags env.ifsInit env.elsInit
        { acc := [], wlen := wlen0, col := col0 + wlen0 } src

/-- Byte extent written into the caller's output buffer by the pipe
pre-scan's per-token recursive call (line 956):
`mutt_expando_format(buf, sizeof(buf), 0, cols, word.data, callback, data,
flags | MUTT_FORMAT_NOFILTER)`.  `buf` is the caller's output buffer and
`sizeof(buf)` is the size of a `char *` (8 on LP64) — not the scratch
array `tmp` and its size — so every token render writes its output plus a
terminating zero at the start of the caller's buffer under capacity 8,
regardless of the caller's real capacity.  This definition records the
largest written index plus one over the tokens of one pipe render. -/
def pipeTokenWriteHighWater (fuel : Nat) (env : FmtEnv) (cols data : Nat)
    (flags : FmtFlags) (src0 : List Nat) : Nat :=
  let src := cstr src0
  let srccopy := src.take (src.length - 1)
  ((muttTokenize srccopy).map (fun tok =>
      (renderFmt fuel env 8 0 cols (cstr tok) data
        { flags with noFilter := true }).length + 1)).foldr max 0

/-- One unit of the literal/`%%`-only template language of the spec's
first testable property. -/
inductive LitUnit where
  | lit (b : Nat)
  | esc
deriving Repr, DecidableEq

/-- Byte representation of a literal/escape unit. -/
def LitUnit.bytes : LitUnit → List Nat
  | .lit b => [b]
  | .esc => [37, 37]

/-- The template denoted by a unit list. -/
def litFlat (us : List LitUnit) : List Nat :=
  us.flatMap LitUnit.bytes

/-- The collapsed text: each literal stands for itself, each `%%` for one
`%`. -/
def litCollapse (us : List LitUnit) : List Nat :=
  us.map (fun u => match u with | .lit b => b | .esc => 37)

/-- A unit is plain: a literal is a single printable non-special byte
(not NUL, single-byte in this locale, not `%`, not `\`). -/
def litGoodB : LitUnit → Bool
  | .lit b => decide (0 < b) && decide (b < 128) && b != 37 && b != 92
  | .esc => true

/-- What the main scan emits on a literal/`%%` template with byte budget
`buflen` starting at `wlen` written bytes: a `%%` escape fits while
`wlen < buflen`, a literal byte only while `wlen + 1 < buflen`; the first
unit that does not fit ends the scan. -/
def litPredict (buflen : Nat) : Nat → List LitUnit → List Nat
  | _, [] => []
  | wlen, .lit b :: us =>
    if wlen + 1 < buflen then b :: litPredict buflen (wlen + 1) us else []
  | wlen, .esc :: us =>
    if wlen < buflen then 37 :: litPredict buflen (wlen + 1) us else []

/-- A trivial environment for concrete runs: arrow-cursor option off,
uninitialized scratch empty, a callback expanding to nothing, a filter
whose spawn fails. -/
def envA : FmtEnv :=
  { arrowOpt := false, tmpInit := [], ifsInit := [], elsInit := [],
    callback := fun _ _ _ _ _ _ _ _ _ _ => ([], 0),
    filterSpawn := fun _ => none }

/-- Flags with nothing set (no arrow cursor, filtering allowed, not in
optional mode). -/
def flags0 : FmtFlags := ⟨false, false, false⟩

/-- Flags with `MUTT_FORMAT_NOFILTER` set. -/
def flagsNF : FmtFlags := ⟨false, true, false⟩

/-- `envA` with the uninitialized scratch array `tmp` holding the C string
"G". -/
def envG : FmtEnv := { envA with tmpInit := [71] }

/-- `envA` with a filter that spawns, writes "hi" to its output, and
exits with status 1. -/
def envHI : FmtEnv := { envA with filterSpawn := fun _ => some ([104, 105], 1) }

/-- `envA` with a filter that spawns, writes "abc%", and exits 0. -/
def envPct : FmtEnv := { envA with filterSpawn := fun _ => some ([97, 98, 99, 37], 0) }

/-! ## List helper lemmas -/

theorem cstr_of_not_mem (l : List Nat) (h : (0 : Nat) ∉ l) : cstr l = l := by
  simp only [cstr]
  simp
  intro x hx h0
  exact h (h0 ▸ hx)

theorem muttStrlen_le (l : List Nat) : muttStrlen l ≤ l.length :=
  (List.takeWhile_prefix _).length_le

theorem take_muttStrlen (l : List Nat) : l.take (muttStrlen l) = cstr l :=
  (List.prefix_iff_eq_take.1 (List.takeWhile_prefix _)).symm

theorem listWrite_length (d xs : List Nat) (i : Nat) (h : i + xs.length ≤ d.length) :
    (listWrite d i xs).length = d.length := by
  simp [listWrite]
  omega

theorem listWrite_take_left (d xs : List Nat) (i k : Nat) (hk : k ≤ i) (hi : i ≤ d.length) :
    (listWrite d i xs).take k = d.take k := by
  have h1 : (d.take i).length = i := by simp [List.length_take]; omega
  rw [listWrite, List.append_assoc,
    List.take_append_of_le_length (by rw [h1]; exact hk), List.take_take]
  congr 1
  omega

theorem listWrite_take_to (d xs : List Nat) (i : Nat) (hi : i ≤ d.length) :
    (listWrite d i xs).take (i + xs.length) = d.take i ++ xs := by
  rw [listWrite]
  rw [List.take_left']
  simp [List.length_take]
  omega

theorem listWrite_getElem_at (d xs : List Nat) (i k : Nat) (hi : i ≤ d.length)
    (hk : k < xs.length) : (listWrite d i xs)[i + k]? = xs[k]? := by
  have h1 : (d.take i).length = i := by simp [List.length_take]; omega
  rw [listWrite, List.append_assoc, List.getElem?_append_right (by omega),
    List.getElem?_append]
  rw [if_pos (by omega)]
  congr 1
  omega

theorem contains_zero_of_getElem? (d : List Nat) (off j : Nat) (hj : off ≤ j)
    (h : d[j]? = some 0) : (d.drop off).contains 0 = true := by
  have h2 : (d.drop off)[j - off]? = some 0 := by
    rw [List.getElem?_drop]
    rw [← h]
    congr 1
    omega
  simp only [List.contains]
  exact List.elem_eq_true_of_mem (List.getElem?_mem h2)

theorem mem_of_contains_zero (d : List Nat) (h : d.contains 0 = true) : (0 : Nat) ∈ d := by
  simp only [List.contains] at h
  exact List.elem_iff.1 h

theorem bufGrow_length (d : List Nat) (n : Nat) : (bufGrow d n).length = n := by
  simp [bufGrow]
  omega

theorem bufGrow_take (d : List Nat) (n k : Nat) (hk : k ≤ d.length) (hkn : k ≤ n) :
    (bufGrow d n).take k = d.take k := by
  rw [bufGrow, List.take_append_of_le_length (by simp [List.length_take]; omega),
    List.take_take]
  congr 1
  omega

/-! ## Buffer operation lemmas -/

theorem goodBuf_facts (b : Buffer) (hg : goodBuf b = true) :
    b.off ≤ b.dsize ∧ b.dsize ≤ (b.data.getD []).length ∧
    b.off ≤ (b.data.getD []).length := by
  cases hd : b.data with
  | none =>
    simp [goodBuf, hd] at hg
    simp [hd]
    omega
  | some d =>
    simp [goodBuf, hd] at hg
    simp [hd]
    omega

theorem addGrowIncrement_ge (len : Nat) :
    len + 1 ≤ addGrowIncrement len ∧ 1 ≤ addGrowIncrement len := by
  unfold addGrowIncrement
  split <;> omega

theorem addGrown_spec (b : Buffer) (len : Nat) (hg : goodBuf b = true) :
    ∃ g, (addGrown b len).data = some g ∧
      (addGrown b len).off = b.off ∧
      b.off + len + 1 ≤ (addGrown b len).dsize ∧
      (addGrown b len).dsize ≤ g.length ∧
      b.off + len + 1 ≤ g.length ∧
      g.take b.off = (b.data.getD []).take b.off := by
  have hinc := addGrowIncrement_ge len
  have hfacts := goodBuf_facts b hg
  by_cases hgrow : b.off + len + 1 > b.dsize
  · have heq : addGrown b len =
        { data := some (bufGrow (b.data.getD []) (b.dsize + addGrowIncrement len)),
          dsize := b.dsize + addGrowIncrement len, off := b.off } := by
      rw [addGrown, if_pos hgrow]
    refine ⟨bufGrow (b.data.getD []) (b.dsize + addGrowIncrement len),
      by rw [heq], by rw [heq], ?_, ?_, ?_, ?_⟩
    · rw [heq]
      show b.off + len + 1 ≤ b.dsize + addGrowIncrement len
      omega
    · rw [heq]
      show b.dsize + addGrowIncrement len ≤ (bufGrow (b.data.getD []) (b.dsize + addGrowIncrement len)).length
      rw [bufGrow_length]
    · rw [bufGrow_length]
      omega
    · exact bufGrow_take _ _ _ hfacts.2.2 (by omega)
  · have heq : addGrown b len = b := by
      rw [addGrown, if_neg hgrow]
    cases hd : b.data with
    | none =>
      simp [goodBuf, hd] at hg
      omega
    | some d =>
      have hdl : (b.data.getD []).length = d.length := by rw [hd]; rfl
      refine ⟨d, by rw [heq, hd], by rw [heq], by rw [heq]; omega, ?_, ?_, ?_⟩
      · rw [heq]
        omega
      · omega
      · rfl

theorem mutt_buffer_add_spec (b : Buffer) (s : List Nat) (len : Nat)
    (hg : goodBuf b = true) (hl : len ≤ s.length) :
    goodBuf (mutt_buffer_add b s len) = true ∧
    bufContent (mutt_buffer_add b s len) = bufContent b ++ s.take len ∧
    (mutt_buffer_add b s len).off = b.off + len ∧
    (mutt_buffer_add b s len).off < (mutt_buffer_add b s len).dsize ∧
    ((mutt_buffer_add b s len).data.getD [])[b.off + len]? = some 0 := by
  obtain ⟨g, hdata, hoffg, hns, hnsg, hg1, htake⟩ := addGrown_spec b len hg
  have stlen : (s.take len).length = len := by
    simp [List.length_take]
    omega
  have hadd : mutt_buffer_add b s len =
      { data := some (listWrite (listWrite g b.off (s.take len)) (b.off + len) [0]),
        dsize := (addGrown b len).dsize, off := b.off + len } := by
    rw [mutt_buffer_add]
    rw [hdata]
    rw [hoffg]
  have hlen2 : (listWrite g b.off (s.take len)).length = g.length := by
    apply listWrite_length
    omega
  have hlen3 : (listWrite (listWrite g b.off (s.take len)) (b.off + len) [0]).length = g.length := by
    rw [listWrite_length]
    · exact hlen2
    · simp [hlen2]
      omega
  have hterm : (listWrite (listWrite g b.off (s.take len)) (b.off + len) [0])[b.off + len]? = some 0 := by
    have := listWrite_getElem_at (listWrite g b.off (s.take len)) [0] (b.off + len) 0
      (by omega) (by simp)
    simpa using this
  have hcontent : (listWrite (listWrite g b.off (s.take len)) (b.off + len) [0]).take (b.off + len)
      = bufContent b ++ s.take len := by
    rw [listWrite_take_left _ _ _ _ (le_refl _) (by omega)]
    have h2 : (listWrite g b.off (s.take len)).take (b.off + (s.take len).length)
        = g.take b.off ++ s.take len := listWrite_take_to g (s.take len) b.off (by omega)
    rw [stlen] at h2
    rw [h2, htake]
    rfl
  have hmem : (0 : Nat) ∈ (listWrite (listWrite g b.off (s.take len)) (b.off + len) [0]).drop (b.off + len) := by
    have h2 : ((listWrite (listWrite g b.off (s.take len)) (b.off + len) [0]).drop (b.off + len))[0]? = some 0 := by
      rw [List.getElem?_drop]
      simpa using hterm
    exact List.getElem?_mem h2
  refine ⟨?_, ?_, ?_, ?_, ?_⟩
  · rw [hadd]
    simp [goodBuf]
    exact ⟨⟨⟨by omega, by omega⟩, by omega⟩, hmem⟩
  · rw [hadd]
    simp [bufContent]
    exact hcontent
  · rw [hadd]
  · rw [hadd]
    simp
    omega
  · rw [hadd]
    simpa using hterm

theorem goodBuf_of_write (d : List Nat) (doff dsize : Nat) (s : List Nat)
    (h1 : doff + s.length + 1 ≤ dsize) (h2 : dsize ≤ d.length) :
    goodBuf { data := some (listWrite d doff (s ++ [0])), dsize := dsize,
              off := doff + s.length } = true := by
  have hW : doff + (s ++ [0]).length ≤ d.length := by
    simp
    omega
  have hlen : (listWrite d doff (s ++ [0])).length = d.length :=
    listWrite_length _ _ _ hW
  have hterm : (listWrite d doff (s ++ [0]))[doff + s.length]? = some 0 := by
    have h3 := listWrite_getElem_at d (s ++ [0]) doff s.length (by omega) (by simp)
    rw [h3]
    rw [List.getElem?_append_right (le_refl _)]
    simp
  have hmem : (0 : Nat) ∈ (listWrite d doff (s ++ [0])).drop (doff + s.length) := by
    have h2' : ((listWrite d doff (s ++ [0])).drop (doff + s.length))[0]? = some 0 := by
      rw [List.getElem?_drop]
      simpa using hterm
    exact List.getElem?_mem h2'
  simp [goodBuf]
  exact ⟨⟨⟨by omega, by omega⟩, by omega⟩, hmem⟩

theorem printfPrep_spec (b : Buffer) (hg : goodBuf b = true) :
    ∃ d, (printfPrep b).data = some d ∧
      (printfPrep b).off = b.off ∧
      b.off < (printfPrep b).dsize ∧
      (printfPrep b).dsize ≤ d.length ∧
      printfBlen b = ((printfPrep b).dsize : Int) - (b.off : Int) := by
  obtain ⟨bd, bs, bo⟩ := b
  cases bd with
  | none =>
    simp [goodBuf] at hg
    obtain ⟨h1, h2⟩ := hg
    subst h1
    subst h2
    exact ⟨bufGrow [] 128, by simp [printfPrep], by simp [printfPrep],
      by simp [printfPrep], by simp [printfPrep, bufGrow_length],
      by simp [printfPrep, printfBlen]⟩
  | some d =>
    simp [goodBuf] at hg
    by_cases hz : (bs : Int) - (bo : Int) = 0
    · have hbs : bs = bo := by omega
      refine ⟨bufGrow d (bs + 128), ?_, ?_, ?_, ?_, ?_⟩ <;>
        simp [printfPrep, printfBlen, hz, bufGrow_length]
      · omega
      · omega
    · refine ⟨d, ?_, ?_, ?_, ?_, ?_⟩ <;>
        simp [printfPrep, printfBlen, hz]
      · omega
      · omega

theorem mutt_buffer_printf_good (b : Buffer) (s : List Nat) (hg : goodBuf b = true) :
    goodBuf (mutt_buffer_printf b s) = true := by
  obtain ⟨p, hpd, hpo, hps, hpl, hblen⟩ := printfPrep_spec b hg
  have hblenpos : (0 : Int) < printfBlen b := by
    rw [hblen]
    have := hps
    omega
  by_cases hge : ((s.length : Int) ≥ printfBlen b)
  · have hlenpos : 0 < s.length := by omega
    have heq : mutt_buffer_printf b s =
        { data := some (listWrite (bufGrow ((printfPrep b).data.getD [])
            ((printfPrep b).dsize + (if (s.length : Int) + 1 - printfBlen b < 128 then (128 : Int)
              else (s.length : Int) + 1 - printfBlen b).toNat))
            (printfPrep b).off (s ++ [0])),
          dsize := (printfPrep b).dsize + (if (s.length : Int) + 1 - printfBlen b < 128 then (128 : Int)
              else (s.length : Int) + 1 - printfBlen b).toNat,
          off := (printfPrep b).off + s.length } := by
      rw [mutt_buffer_printf]
      simp only [if_pos hge, if_pos hlenpos]
    rw [heq]
    apply goodBuf_of_write
    · by_cases hif : (s.length : Int) + 1 - printfBlen b < 128
      · rw [if_pos hif]
        rw [hblen] at hge hif
        have := hpo ▸ hps
        omega
      · rw [if_neg hif]
        rw [hblen] at hge hif
        have := hpo ▸ hps
        omega
    · rw [bufGrow_length]
  · have heq : mutt_buffer_printf b s =
        { data := some (listWrite ((printfPrep b).data.getD []) (printfPrep b).off (s ++ [0])),
          dsize := (printfPrep b).dsize, off := (printfPrep b).off + s.length } := by
      rw [mutt_buffer_printf]
      simp only [if_neg hge]
      by_cases hl0 : 0 < s.length
      · simp only [if_pos hl0]
      · have h0 : s.length = 0 := by omega
        simp only [h0]
        simp
    rw [heq]
    apply goodBuf_of_write
    · rw [hblen] at hge
      have := hpo ▸ hps
      omega
    · rw [hpd]
      simpa using hpl

theorem goodBuf_reset (b : Buffer) (hg : goodBuf b = true) :
    goodBuf (mutt_buffer_reset b) = true := by
  obtain ⟨bd, bs, bo⟩ := b
  cases bd with
  | none =>
    simp [goodBuf] at hg
    simp [goodBuf, mutt_buffer_reset, hg.2]
  | some d =>
    simp [goodBuf] at hg
    obtain ⟨⟨⟨h1, h2⟩, h3⟩, h4⟩ := hg
    simp [goodBuf, mutt_buffer_reset]
    have hmin : bs ⊓ d.length = bs := inf_eq_left.2 h2
    refine ⟨⟨by omega, ?_⟩, ?_⟩
    · rcases Nat.eq_zero_or_pos bs with hbs | hbs
      · exact Or.inr (by omega)
      · exact Or.inl ⟨hbs, by omega⟩
    · by_cases hbs : bs = 0
      · subst hbs
        exact Or.inr (by simpa using List.mem_of_mem_drop h4)
      · exact Or.inl ⟨hbs, by intro hnil; subst hnil; simp at h3⟩

theorem goodBuf_rewind (b : Buffer) (hg : goodBuf b = true) :
    goodBuf (mutt_buffer_rewind b) = true := by
  obtain ⟨bd, bs, bo⟩ := b
  cases bd with
  | none =>
    simp [goodBuf] at hg
    simp [goodBuf, mutt_buffer_rewind, mutt_buffer_seek, hg.2]
  | some d =>
    simp [goodBuf] at hg
    obtain ⟨⟨⟨h1, h2⟩, h3⟩, h4⟩ := hg
    simp [goodBuf, mutt_buffer_rewind, mutt_buffer_seek]
    exact ⟨⟨h2, by omega⟩, List.mem_of_mem_drop h4⟩

theorem goodBuf_from (seed : List Nat) :
    goodBuf (mutt_buffer_from seed) = true ∧
    (mutt_buffer_from seed).off = (mutt_buffer_from seed).dsize := by
  constructor
  · have hdrop : (cstr seed ++ [0]).drop (muttStrlen seed) = [0] :=
      List.drop_left' rfl
    simp only [goodBuf, mutt_buffer_from]
    rw [hdrop]
    simp [muttStrlen]
  · rfl

/-! ## Claims about the Buffer (C4, C8, C10) -/

/-- C4 (corrected).  The claim says that after every Buffer operation the
cursor offset lies within `[0, capacity)` whenever the data array is
non-empty, with a trailing zero terminator not counted as content.
`mutt_buffer_from` violates the half-open bound: it leaves the cursor
exactly at `capacity` (see the counterexample).  Amended as the
counterexample forces: after init, reinit, reset, add, addstr, addch,
printf and rewind the invariant `goodBuf` holds — cursor within
`[0, capacity]` (in fact strictly inside except for `from`), `capacity`
no larger than the allocation, and a zero terminator in the allocation at
or after the cursor, not counted as logical content; `mutt_buffer_from`
also establishes `goodBuf`, with cursor equal to capacity and the
terminator one byte past it. -/
theorem c4_buffer_invariant_amended :
    (goodBuf mutt_buffer_init = true) ∧
    (∀ b : Buffer, goodBuf (mutt_buffer_reinit b) = true) ∧
    (∀ b : Buffer, goodBuf b = true → goodBuf (mutt_buffer_reset b) = true) ∧
    (∀ (b : Buffer) (s : List Nat) (len : Nat), goodBuf b = true → len ≤ s.length →
      goodBuf (mutt_buffer_add b s len) = true) ∧
    (∀ (b : Buffer) (s : List Nat), goodBuf b = true →
      goodBuf (mutt_buffer_addstr b s) = true) ∧
    (∀ (b : Buffer) (c : Nat), goodBuf b = true →
      goodBuf (mutt_buffer_addch b c) = true) ∧
    (∀ (b : Buffer) (s : List Nat), goodBuf b = true →
      goodBuf (mutt_buffer_printf b s) = true) ∧
    (∀ seed : List Nat, goodBuf (mutt_buffer_from seed) = true ∧
      (mutt_buffer_from seed).off = (mutt_buffer_from seed).dsize) ∧
    (∀ b : Buffer, goodBuf b = true → goodBuf (mutt_buffer_rewind b) = true) :=
  ⟨rfl, fun _ => rfl, goodBuf_reset,
    fun b s len hg hl => (mutt_buffer_add_spec b s len hg hl).1,
    fun b s hg => (mutt_buffer_add_spec b s (muttStrlen s) hg (muttStrlen_le s)).1,
    fun b c hg => (mutt_buffer_add_spec b [c] 1 hg (by simp)).1,
    mutt_buffer_printf_good, goodBuf_from, goodBuf_rewind⟩

/-- C4 counterexample: `mutt_buffer_from` with seed "a" leaves a non-empty
data array whose cursor offset equals the capacity, so the claimed
invariant `cursor ∈ [0, capacity)` is false at this input. -/
theorem c4_counterexample_from :
    (mutt_buffer_from [97]).data.isSome = true ∧
    (mutt_buffer_from [97]).off = 1 ∧
    (mutt_buffer_from [97]).dsize = 1 ∧
    ¬ ((mutt_buffer_from [97]).off < (mutt_buffer_from [97]).dsize) := by
  decide

/-- C4 witness: the amended invariant theorem applied at concrete
buffers. -/
theorem c4_witness :
    goodBuf (mutt_buffer_from [97]) = true ∧
    goodBuf (mutt_buffer_reset (mutt_buffer_from [97])) = true ∧
    goodBuf (mutt_buffer_add (mutt_buffer_from [97]) [98, 99] 2) = true :=
  ⟨(c4_buffer_invariant_amended.2.2.2.2.2.2.2.1 [97]).1,
   c4_buffer_invariant_amended.2.2.1 _ (by decide),
   c4_buffer_invariant_amended.2.2.2.1 _ [98, 99] 2 (by decide) (by decide)⟩

/-- C8 (confirmed).  For every buffer satisfying the reachable-state
invariant and byte strings `s1`, `s2`, the logical content after
`add(add(b, s1), s2)` is the content of `b` followed by `s1 ++ s2`, and
the data is zero-terminated at the cursor after each `add` call. -/
theorem c8_add_append (b : Buffer) (s1 s2 : List Nat) (hg : goodBuf b = true) :
    bufContent (mutt_buffer_add (mutt_buffer_add b s1 s1.length) s2 s2.length)
      = bufContent b ++ s1 ++ s2 ∧
    ((mutt_buffer_add b s1 s1.length).data.getD [])[(mutt_buffer_add b s1 s1.length).off]?
      = some 0 ∧
    ((mutt_buffer_add (mutt_buffer_add b s1 s1.length) s2 s2.length).data.getD [])[
      (mutt_buffer_add (mutt_buffer_add b s1 s1.length) s2 s2.length).off]? = some 0 := by
  obtain ⟨hg1, hc1, ho1, _, ht1⟩ := mutt_buffer_add_spec b s1 s1.length hg (le_refl _)
  obtain ⟨hg2, hc2, ho2, _, ht2⟩ :=
    mutt_buffer_add_spec (mutt_buffer_add b s1 s1.length) s2 s2.length hg1 (le_refl _)
  refine ⟨?_, ?_, ?_⟩
  · rw [hc2, hc1, List.take_length, List.take_length]
  · rw [ho1]
    exact ht1
  · rw [ho2, ho1]
    rw [ho1] at ht2
    exact ht2

/-- C8 witness: the content-equality law at a concrete buffer. -/
theorem c8_witness :
    bufContent (mutt_buffer_add (mutt_buffer_add mutt_buffer_init [1, 2] 2) [3] 1)
      = [1, 2, 3] := by
  have h := (c8_add_append mutt_buffer_init [1, 2] [3] (by decide)).1
  simpa [bufContent, mutt_buffer_init] using h

/-- C10 (confirmed).  In `mutt_buffer_add`, for every buffer whose cursor
offset is at most its capacity and for which the growth test fires, the
single growth step of `addGrowIncrement len = max 128 (len + 1)` bytes
suffices: afterwards `off + len + 1 ≤ dsize`, the allocation has exactly
`dsize` bytes, and the `len`-byte copy and terminator lie within it (the
terminator byte is at offset `off + len`), so no second growth can be
needed within one call. -/
theorem c10_add_single_growth (b : Buffer) (s : List Nat) (len : Nat)
    (h1 : b.off ≤ b.dsize) (h2 : b.dsize < b.off + len + 1) :
    (mutt_buffer_add b s len).dsize = b.dsize + addGrowIncrement len ∧
    b.off + len + 1 ≤ (mutt_buffer_add b s len).dsize ∧
    (mutt_buffer_add b s len).off = b.off + len ∧
    ∃ d, (mutt_buffer_add b s len).data = some d ∧
      d.length = (mutt_buffer_add b s len).dsize ∧
      d[b.off + len]? = some 0 := by
  have hinc := addGrowIncrement_ge len
  have hgrown : addGrown b len =
      { data := some (bufGrow (b.data.getD []) (b.dsize + addGrowIncrement len)),
        dsize := b.dsize + addGrowIncrement len, off := b.off } := by
    rw [addGrown, if_pos (by omega)]
  have hglen : (bufGrow (b.data.getD []) (b.dsize + addGrowIncrement len)).length
      = b.dsize + addGrowIncrement len := bufGrow_length _ _
  have hadd : mutt_buffer_add b s len =
      { data := some (listWrite (listWrite (bufGrow (b.data.getD [])
          (b.dsize + addGrowIncrement len)) b.off (s.take len)) (b.off + len) [0]),
        dsize := b.dsize + addGrowIncrement len, off := b.off + len } := by
    rw [mutt_buffer_add, hgrown]
  have hl2 : (listWrite (bufGrow (b.data.getD []) (b.dsize + addGrowIncrement len))
      b.off (s.take len)).length = b.dsize + addGrowIncrement len := by
    rw [listWrite_length]
    · exact hglen
    · rw [hglen]
      simp [List.length_take]
      omega
  have hl3 : (listWrite (listWrite (bufGrow (b.data.getD [])
      (b.dsize + addGrowIncrement len)) b.off (s.take len)) (b.off + len) [0]).length
      = b.dsize + addGrowIncrement len := by
    rw [listWrite_length]
    · exact hl2
    · rw [hl2]
      simp
      omega
  have hterm : (listWrite (listWrite (bufGrow (b.data.getD [])
      (b.dsize + addGrowIncrement len)) b.off (s.take len)) (b.off + len) [0])[b.off + len]?
      = some 0 := by
    have h3 := listWrite_getElem_at (listWrite (bufGrow (b.data.getD [])
      (b.dsize + addGrowIncrement len)) b.off (s.take len)) [0] (b.off + len) 0
      (by rw [hl2]; omega) (by simp)
    simpa using h3
  refine ⟨by rw [hadd], by rw [hadd]; simp; omega, by rw [hadd], ?_⟩
  rw [hadd]
  exact ⟨_, rfl, by simpa using hl3, hterm⟩

/-- C10 witness: the growth bound applied to the empty initial buffer. -/
theorem c10_witness :
    (mutt_buffer_add mutt_buffer_init [7] 1).dsize
      = mutt_buffer_init.dsize + addGrowIncrement 1 :=
  (c10_add_single_growth mutt_buffer_init [7] 1 (by decide) (by decide)).1

/-! ## Scan step lemmas -/

theorem mutt_mb_charlen_ascii (c : Nat) (rest : List Nat) (h0 : c ≠ 0) (h128 : c < 128) :
    mutt_mb_charlen (c :: rest) = (1, 1) := by
  have h1 : (c == 0) = false := by simp [h0]
  simp [mutt_mb_charlen, h1, h128]

theorem scanFmt_fuel_zero (env : FmtEnv) (rsub : Nat → Nat → List Nat → FmtFlags → List Nat)
    (buflen cols data : Nat) (flags : FmtFlags) (ifs els : List Nat) (st : ScanSt)
    (src : List Nat) :
    scanFmt env rsub buflen cols data 0 flags ifs els st src = st.acc := by
  simp [scanFmt]

theorem scanFmt_nil (env : FmtEnv) (rsub : Nat → Nat → List Nat → FmtFlags → List Nat)
    (buflen cols data : Nat) (lfuel : Nat) (flags : FmtFlags) (ifs els : List Nat)
    (st : ScanSt) :
    scanFmt env rsub buflen cols data lfuel flags ifs els st [] = st.acc := by
  cases lfuel <;> simp [scanFmt]

theorem scanFmt_wlen_stop (env : FmtEnv) (rsub : Nat → Nat → List Nat → FmtFlags → List Nat)
    (buflen cols data : Nat) (lfuel : Nat) (flags : FmtFlags) (ifs els : List Nat)
    (st : ScanSt) (c : Nat) (rest : List Nat) (hw : ¬ st.wlen < buflen) :
    scanFmt env rsub buflen cols data (lfuel + 1) flags ifs els st (c :: rest) = st.acc := by
  simp only [scanFmt]
  rw [if_pos hw]

theorem scanFmt_lit_step (env : FmtEnv) (rsub : Nat → Nat → List Nat → FmtFlags → List Nat)
    (buflen cols data : Nat) (lfuel : Nat) (flags : FmtFlags) (ifs els : List Nat)
    (st : ScanSt) (c : Nat) (rest : List Nat)
    (hc0 : c ≠ 0) (hc128 : c < 128) (hc37 : c ≠ 37) (hc92 : c ≠ 92)
    (hfit : st.wlen + 1 < buflen) :
    scanFmt env rsub buflen cols data (lfuel + 1) flags ifs els st (c :: rest)
      = scanFmt env rsub buflen cols data lfuel flags ifs els
          { acc := st.acc ++ [c], wlen := st.wlen + 1, col := st.col + 1 } rest := by
  have h37 : (c == 37) = false := by simp [hc37]
  have h92 : (c == 92) = false := by simp [hc92]
  simp only [scanFmt, h37, h92, mutt_mb_charlen_ascii c rest hc0 hc128]
  rw [if_neg (by omega)]
  simp
  exact fun h => absurd h (by omega)

theorem scanFmt_lit_stop (env : FmtEnv) (rsub : Nat → Nat → List Nat → FmtFlags → List Nat)
    (buflen cols data : Nat) (lfuel : Nat) (flags : FmtFlags) (ifs els : List Nat)
    (st : ScanSt) (c : Nat) (rest : List Nat)
    (hc0 : c ≠ 0) (hc128 : c < 128) (hc37 : c ≠ 37) (hc92 : c ≠ 92)
    (hw : st.wlen < buflen) (hnofit : ¬ st.wlen + 1 < buflen) :
    scanFmt env rsub buflen cols data (lfuel + 1) flags ifs els st (c :: rest) = st.acc := by
  have h37 : (c == 37) = false := by simp [hc37]
  have h92 : (c == 92) = false := by simp [hc92]
  simp only [scanFmt, h37, h92, mutt_mb_charlen_ascii c rest hc0 hc128]
  rw [if_neg (by omega)]
  simp
  exact fun h => absurd h hnofit

theorem scanFmt_esc_step (env : FmtEnv) (rsub : Nat → Nat → List Nat → FmtFlags → List Nat)
    (buflen cols data : Nat) (lfuel : Nat) (flags : FmtFlags) (ifs els : List Nat)
    (st : ScanSt) (rest : List Nat) (hw : st.wlen < buflen) :
    scanFmt env rsub buflen cols data (lfuel + 1) flags ifs els st (37 :: 37 :: rest)
      = scanFmt env rsub buflen cols data lfuel flags ifs els
          { acc := st.acc ++ [37], wlen := st.wlen + 1, col := st.col + 1 } rest := by
  simp only [scanFmt]
  rw [if_neg (by omega)]
  simp

/-! ## Claims about the renderer: C9, C1, C3 -/

/-- C9 (confirmed).  The pipe pre-scan requires a template length strictly
greater than one, so the one-character template "|" is never treated as a
shell pipeline even with filtering enabled; the main scan renders it as
the literal "|" (for any capacity of at least 3, enough for the literal
branch's strict byte test plus the terminator). -/
theorem c9_single_pipe_literal :
    (∀ src : List Nat, src.length ≤ 1 → pipeTriggers src = false) ∧
    (∀ (env : FmtEnv) (f cap col0 cols data : Nat) (flags : FmtFlags),
      flags.noFilter = false → flags.arrowCursor = false → 3 ≤ cap →
      renderFmt (f + 2) env cap col0 cols [124] data flags = [124]) := by
  constructor
  · intro src h
    simp only [pipeTriggers]
    rw [if_neg]
    intro hc
    omega
  · intro env f cap col0 cols data flags hnf harrow hcap
    have hpt : pipeTriggers (cstr [124]) = false := by decide
    simp only [renderFmt]
    rw [if_neg (by simp [hnf, hpt])]
    rw [show cstr [124] = [124] from rfl]
    simp only [harrow, Bool.false_and, Bool.false_eq_true, if_false]
    rw [scanFmt_lit_step env _ (cap - 1) cols data f flags env.ifsInit env.elsInit
      _ 124 [] (by omega) (by omega) (by omega) (by omega) (by simp; omega)]
    exact scanFmt_nil _ _ _ _ _ _ _ _ _ _

/-- C9 witness: the theorem applied at template "|", capacity 64. -/
theorem c9_witness : renderFmt 7 envA 64 0 80 [124] 0 flags0 = [124] :=
  c9_single_pipe_literal.2 envA 5 64 0 80 0 flags0 rfl rfl (by omega)

/-- C1 (code bug).  The claim says every render with capacity ≥ 1 writes
at most `capacity - 1` bytes and a terminator within `capacity`, the
pipe-filter path included.  The pipe path violates this: line 956 renders
each extracted token into `buf` — the caller's output buffer — with
capacity `sizeof(buf)`, the size of a `char *` (8), instead of into the
scratch array `tmp` with `sizeof(tmp)`.  For the filtering-enabled
template "ab|" with capacity 2, the token "ab" is rendered into the
output buffer, writing the three bytes 'a', 'b', NUL at indices 0, 1, 2 —
beyond the 2-byte buffer.  This theorem evaluates the model of those
writes at that input: the pipe pre-scan fires and the per-token write
extent is 3 > 2. -/
theorem c1_pipe_token_overflow :
    pipeTriggers (cstr [97, 98, 124]) = true ∧
    pipeTokenWriteHighWater 10 envA 80 0 flags0 [97, 98, 124] = 3 ∧
    ¬ (pipeTokenWriteHighWater 10 envA 80 0 flags0 [97, 98, 124] ≤ 2) := by
  decide

/-- C3 (code bug).  The claim says the pipe command line is built by
shell-quoting each recursively rendered token and joining them with
spaces.  In the code (lines 956-968) the recursive render of the token
goes into `buf` (with capacity `sizeof(char *)`), while the quoting loop
reads `tmp`, which the pipe loop never writes — so the command is built
from the uninitialized contents of `tmp` and the rendered token text
never appears in it.  Concretely, for template "x|" with `tmp` initially
holding "G": the token "x" renders to "x" (second conjunct, rendered
exactly as the loop's recursive call does, capacity 8, filtering
disabled), yet the built command line is `'G' ` — it does not contain the
rendered token byte at all, and differs from the claimed `'x' `. -/
theorem c3_command_ignores_rendered_token :
    pipeCommand envG (muttTokenize [120]) = [39, 71, 39, 32] ∧
    renderFmt 10 envG 8 0 80 [120] 0 flagsNF = [120] ∧
    ¬ (120 ∈ pipeCommand envG (muttTokenize [120])) ∧
    pipeCommand envG (muttTokenize [120]) ≠ [39, 120, 39, 32] := by
  decide

/-! ## Pipe-path lemmas and claims C6, C5 -/

theorem stripTrailNL_concat (l : List Nat) (x : Nat) (h10 : x ≠ 10) (h13 : x ≠ 13) :
    stripTrailNL (l ++ [x]) = l ++ [x] := by
  have hp : ((x == 10) || (x == 13)) = false := by simp [h10, h13]
  simp [stripTrailNL, List.dropWhile_cons, hp]

theorem pipeCapture_recycle (recycle : List Nat → List Nat) (buflen : Nat) (t : List Nat)
    (h0 : (0 : Nat) ∉ t) (hne : t ≠ []) (hlast : t.getLastD 0 ≠ 37)
    (hlen : t.length + 1 ≤ buflen) :
    pipeCapture recycle buflen (t ++ [37]) = recycle t := by
  have hcap : (t ++ [37]).take buflen = t ++ [37] :=
    List.take_of_length_le (by simp; omega)
  simp only [pipeCapture, hcap]
  rw [if_pos (by simp)]
  rw [stripTrailNL_concat t 37 (by omega) (by omega)]
  rw [if_pos ⟨by simp, by simp [List.getLastD_concat]⟩]
  rw [List.dropLast_concat]
  have hlast2 : ¬ t.getLast?.getD 0 = 37 := by
    rw [← List.getLastD_eq_getLast?]
    exact hlast
  rw [if_pos ⟨List.length_pos.2 hne, by simp [hlast2]⟩]
  rw [cstr_of_not_mem t h0]

theorem pipeCapture_literal (recycle : List Nat → List Nat) (buflen : Nat) (t : List Nat)
    (h0 : (0 : Nat) ∉ t) (hlen : t.length + 2 ≤ buflen) :
    pipeCapture recycle buflen (t ++ [37, 37]) = t ++ [37] := by
  have hsplit : t ++ [37, 37] = (t ++ [37]) ++ [37] := by simp
  rw [hsplit]
  have hcap : ((t ++ [37]) ++ [37]).take buflen = (t ++ [37]) ++ [37] :=
    List.take_of_length_le (by simp; omega)
  simp only [pipeCapture, hcap]
  rw [if_pos (by simp)]
  rw [stripTrailNL_concat (t ++ [37]) 37 (by omega) (by omega)]
  rw [if_pos ⟨by simp, by simp [List.getLastD_concat]⟩]
  rw [List.dropLast_concat]
  rw [if_neg (by simp [List.getLastD_concat])]
  exact cstr_of_not_mem (t ++ [37]) (by simp [h0])

theorem renderFmt_pipe (env : FmtEnv) (f cap col0 cols data : Nat) (flags : FmtFlags)
    (src : List Nat) (hnf : flags.noFilter = false) (hpt : pipeTriggers (cstr src) = true) :
    renderFmt (f + 1) env cap col0 cols src data flags =
      (match env.filterSpawn (pipeCommand env (muttTokenize
          ((cstr src).take ((cstr src).length - 1)))) with
       | none => []
       | some out => pipeCapture
           (fun r => renderFmt f env ((cap - 1) + 1) col0 cols r data flags) (cap - 1) out.1) := by
  simp only [renderFmt]
  rw [if_pos ⟨by simp [hnf], hpt⟩]

/-- C6 (corrected).  The claim says spawn failure, non-zero exit status,
or a read failure each make the filtered template's contribution empty.
Spawn failure and a failed/empty read do (first two conjuncts), and
rendering returns normally; but a non-zero exit status by itself is only
logged (line 987) — the captured output is still processed: with a filter
that writes "hi" and exits 1, the render yields "hi", not "" (third
conjunct; amended accordingly, see the counterexample). -/
theorem c6_filter_failure_amended :
    (∀ (env : FmtEnv) (f cap col0 cols data : Nat) (flags : FmtFlags) (src : List Nat),
      flags.noFilter = false → pipeTriggers (cstr src) = true →
      env.filterSpawn (pipeCommand env (muttTokenize
        ((cstr src).take ((cstr src).length - 1)))) = none →
      renderFmt (f + 1) env cap col0 cols src data flags = []) ∧
    (∀ (env : FmtEnv) (f cap col0 cols data : Nat) (flags : FmtFlags) (src : List Nat)
      (rc : Int),
      flags.noFilter = false → pipeTriggers (cstr src) = true →
      env.filterSpawn (pipeCommand env (muttTokenize
        ((cstr src).take ((cstr src).length - 1)))) = some ([], rc) →
      renderFmt (f + 1) env cap col0 cols src data flags = []) ∧
    renderFmt 10 envHI 64 0 80 [120, 124] 0 flags0 = [104, 105] := by
  refine ⟨?_, ?_, by decide⟩
  · intro env f cap col0 cols data flags src hnf hpt hspawn
    rw [renderFmt_pipe env f cap col0 cols data flags src hnf hpt, hspawn]
  · intro env f cap col0 cols data flags src rc hnf hpt hspawn
    rw [renderFmt_pipe env f cap col0 cols data flags src hnf hpt, hspawn]
    simp [pipeCapture]

/-- C6 counterexample: a filter that exits with status 1 after writing
"hi"; the claim demands an empty contribution, the code keeps "hi". -/
theorem c6_counterexample_exit_nonzero :
    renderFmt 10 envHI 64 0 80 [120, 124] 0 flags0 = [104, 105] ∧
    [104, 105] ≠ ([] : List Nat) := by
  decide

/-- C6 witness: spawn failure (the `envA` filter) yields the empty
render. -/
theorem c6_witness : renderFmt 5 envA 64 0 80 [120, 124] 0 flags0 = [] :=
  c6_filter_failure_amended.1 envA 4 64 0 80 0 flags0 [120, 124] rfl (by decide) rfl

/-- C5 (confirmed).  Filter recycling: for any captured filter output of
the form `t` followed by exactly one unescaped `%` (the byte before it not
`%`), the `%` is stripped and the remaining text `t` is re-rendered as a
new template under the original capacity, column and flags (first
conjunct, for any environment and any filter producing such output on the
filtering-enabled template "x|"); output ending in a doubled `%%` is not
recycled and renders as the literal text with a single `%` (second
conjunct).  The third conjunct is the spec's concrete instance: captured
"abc%" renders as "abc". -/
theorem c5_filter_recycling :
    (∀ (env : FmtEnv) (f cap col0 cols data : Nat) (flags : FmtFlags) (rc : Int)
      (t : List Nat),
      flags.noFilter = false → (0 : Nat) ∉ t → t ≠ [] → t.getLastD 0 ≠ 37 →
      t.length + 1 ≤ cap - 1 →
      env.filterSpawn (pipeCommand env (muttTokenize [120])) = some (t ++ [37], rc) →
      renderFmt (f + 1) env cap col0 cols [120, 124] data flags
        = renderFmt f env cap col0 cols t data flags) ∧
    (∀ (env : FmtEnv) (f cap col0 cols data : Nat) (flags : FmtFlags) (rc : Int)
      (t : List Nat),
      flags.noFilter = false → (0 : Nat) ∉ t →
      t.length + 2 ≤ cap - 1 →
      env.filterSpawn (pipeCommand env (muttTokenize [120])) = some (t ++ [37, 37], rc) →
      renderFmt (f + 1) env cap col0 cols [120, 124] data flags = t ++ [37]) ∧
    renderFmt 10 envPct 64 0 80 [120, 124] 0 flags0 = [97, 98, 99] := by
  have harg : (cstr [120, 124]).take ((cstr [120, 124]).length - 1) = [120] := rfl
  have hpt : pipeTriggers (cstr [120, 124]) = true := by decide
  refine ⟨?_, ?_, by decide⟩
  · intro env f cap col0 cols data flags rc t hnf h0 hne hlast hlen hspawn
    have hc : (cap - 1) + 1 = cap := by
      have := List.length_pos.2 hne
      omega
    rw [renderFmt_pipe env f cap col0 cols data flags [120, 124] hnf hpt, harg, hspawn, hc]
    show pipeCapture (fun r => renderFmt f env cap col0 cols r data flags) (cap - 1)
        (t ++ [37]) = renderFmt f env cap col0 cols t data flags
    rw [pipeCapture_recycle _ _ t h0 hne hlast hlen]
  · intro env f cap col0 cols data flags rc t hnf h0 hlen hspawn
    rw [renderFmt_pipe env f cap col0 cols data flags [120, 124] hnf hpt, harg, hspawn]
    show pipeCapture (fun r => renderFmt f env ((cap - 1) + 1) col0 cols r data flags)
        (cap - 1) (t ++ [37, 37]) = t ++ [37]
    exact pipeCapture_literal _ _ t h0 hlen

/-- C5 witness: the recycling law applied with the filter producing
"abc%": the pipe render of "x|" equals the plain render of "abc" (and the
spec instance holds concretely). -/
theorem c5_witness :
    renderFmt 6 envPct 64 0 80 [120, 124] 0 flags0
      = renderFmt 5 envPct 64 0 80 [97, 98, 99] 0 flags0 :=
  c5_filter_recycling.1 envPct 5 64 0 80 0 flags0 0 [97, 98, 99] rfl (by decide)
    (by decide) (by decide) (by decide) rfl

/-! ## Right-justify directive: claim C2 -/

theorem padDirKernel_hard_neg (fill : List Nat) (pl pw : Nat) (tmp : List Nat)
    (buflen cols : Nat) (arrow : Bool) (st : ScanSt)
    (hpad : padCalc cols st.col (mutt_strwidth tmp) pw < 0) :
    padDirKernel false fill pl pw tmp buflen cols arrow st =
      { acc := st.acc ++ tmp.take (if muttStrlen tmp + st.wlen > buflen
          then (mutt_wstr_trunc tmp (sizeTSub buflen st.wlen) (sizeTSub cols st.col)).1
          else muttStrlen tmp),
        wlen := st.wlen + (if muttStrlen tmp + st.wlen > buflen
          then (mutt_wstr_trunc tmp (sizeTSub buflen st.wlen) (sizeTSub cols st.col)).1
          else muttStrlen tmp),
        col := st.col + mutt_strwidth tmp } := by
  simp only [padDirKernel]
  rw [if_neg (by omega)]
  simp

theorem scanFmt_hard_pad (env : FmtEnv) (rsub : Nat → Nat → List Nat → FmtFlags → List Nat)
    (buflen cols data lfuel : Nat) (flags : FmtFlags) (ifs els : List Nat) (st : ScanSt)
    (f : Nat) (rest : List Nat)
    (hf0 : 0 < f) (hf128 : f < 128) (hcol : st.col < cols) (hwlen : st.wlen < buflen) :
    scanFmt env rsub buflen cols data (lfuel + 1) flags ifs els st (37 :: 62 :: f :: rest)
      = (padDirKernel false [f] 1 1 (rsub 1024 0 rest { flags with optionalF := false })
          buflen cols (flags.arrowCursor && env.arrowOpt) st).acc := by
  simp only [scanFmt]
  rw [if_neg (by omega)]
  simp only [dispatchFmt, eatPrefixFmt]
  simp
  rw [if_pos ⟨hcol, hwlen⟩, mutt_mb_charlen_ascii f rest (by omega) hf128]
  simp

/-- C2 (corrected).  The claim says a hard `%>F` directive with negative
pad emits neither the padding nor the remainder and contributes nothing.
In the code (lines 1222-1275), when `pad < 0` and the directive is hard,
only the two padding branches are skipped; control falls through to the
common tail, which copies the recursively rendered remainder (truncated
to the remaining byte budget and, when it overflows that budget, to the
remaining column budget) before the `break`.  Amended: under the room
guard (`col < cols`, `wlen < buflen`), with `pad < 0` and a hard
directive, no fill characters are emitted but the rendered remainder IS
appended — whole if it fits the byte budget — and the scan then
terminates (nothing after the directive is processed, the remainder being
the entire rest of the template).  The first conjunct states this against
the scan for an arbitrary left context `st`; the last is a closed
end-to-end instance: rendering "%>Xabc" with 2 screen columns yields
"abc", not "". -/
theorem c2_hard_pad_negative_emits_remainder :
    (∀ (env : FmtEnv) (rsub : Nat → Nat → List Nat → FmtFlags → List Nat)
      (buflen cols data lfuel : Nat) (flags : FmtFlags) (ifs els : List Nat)
      (st : ScanSt) (f : Nat) (rest tmp : List Nat),
      0 < f → f < 128 → st.col < cols → st.wlen < buflen →
      tmp = rsub 1024 0 rest { flags with optionalF := false } →
      padCalc cols st.col (mutt_strwidth tmp) 1 < 0 →
      (scanFmt env rsub buflen cols data (lfuel + 1) flags ifs els st (37 :: 62 :: f :: rest)
        = st.acc ++ tmp.take (if muttStrlen tmp + st.wlen > buflen
            then min (min (muttStrlen tmp) (buflen - st.wlen)) (cols - st.col)
            else muttStrlen tmp)) ∧
      (st.wlen + muttStrlen tmp ≤ buflen →
        scanFmt env rsub buflen cols data (lfuel + 1) flags ifs els st (37 :: 62 :: f :: rest)
          = st.acc ++ cstr tmp)) ∧
    renderFmt 20 envA 10 0 2 [37, 62, 88, 97, 98, 99] 0 flags0 = [97, 98, 99] := by
  refine ⟨?_, by decide⟩
  intro env rsub buflen cols data lfuel flags ifs els st f rest tmp hf0 hf128 hcol hwlen htmp hpad
  subst htmp
  have h1 := scanFmt_hard_pad env rsub buflen cols data lfuel flags ifs els st f rest
    hf0 hf128 hcol hwlen
  have e1 : sizeTSub buflen st.wlen = buflen - st.wlen := by
    rw [sizeTSub, if_pos (le_of_lt hwlen)]
  have e2 : sizeTSub cols st.col = cols - st.col := by
    rw [sizeTSub, if_pos (le_of_lt hcol)]
  rw [h1, padDirKernel_hard_neg _ _ _ _ _ _ _ _ hpad]
  constructor
  · simp only [e1, e2, mutt_wstr_trunc]
  · intro hfit
    simp only []
    rw [if_neg (by omega)]
    rw [take_muttStrlen]

/-- C2 counterexample: the hard right-justify "%>Xabc" rendered with
total columns 2 (so pad = -1) outputs "abc" — the remainder is emitted —
whereas the claim says the directive contributes nothing, which for this
whole-template directive would make the output empty. -/
theorem c2_counterexample :
    renderFmt 20 envA 10 0 2 [37, 62, 88, 97, 98, 99] 0 flags0 = [97, 98, 99] ∧
    [97, 98, 99] ≠ ([] : List Nat) := by
  decide

/-- C2 witness: the amended statement applied at a concrete scan state and
remainder. -/
theorem c2_witness :
    scanFmt envA (fun _ _ _ _ => [97, 98, 99]) 9 2 0 6 flags0 [] [] ⟨[], 0, 0⟩
      [37, 62, 88, 97, 98, 99] = [] ++ cstr [97, 98, 99] :=
  ((c2_hard_pad_negative_emits_remainder.1 envA (fun _ _ _ _ => [97, 98, 99]) 9 2 0 5 flags0
      [] [] ⟨[], 0, 0⟩ 88 [97, 98, 99] [97, 98, 99]
      (by decide) (by decide) (by decide) (by decide) rfl (by decide)).2 (by decide))

/-! ## Literal/%% templates: claim C7 -/

theorem litFlat_not_mem_zero (us : List LitUnit) (hg : ∀ u ∈ us, litGoodB u = true) :
    (0 : Nat) ∉ litFlat us := by
  induction us with
  | nil => simp [litFlat]
  | cons u us ih =>
    have hu := hg u (List.mem_cons_self u us)
    have ht : ∀ v ∈ us, litGoodB v = true := fun v hv => hg v (List.mem_cons_of_mem u hv)
    simp only [litFlat, List.flatMap_cons]
    intro hmem
    rcases List.mem_append.1 hmem with h | h
    · cases u with
      | lit b =>
        simp [litGoodB] at hu
        simp [LitUnit.bytes] at h
        omega
      | esc =>
        simp [LitUnit.bytes] at h
    · exact (ih ht) h

theorem litFlat_getLastD (us : List LitUnit) (u : LitUnit) :
    (litFlat (us ++ [u])).getLastD 0 = (match u with | .lit b => b | .esc => 37) := by
  cases u with
  | lit b =>
    simp only [litFlat, List.flatMap_append, List.flatMap_cons, List.flatMap_nil,
      LitUnit.bytes]
    rw [List.append_nil, List.getLastD_concat]
  | esc =>
    simp only [litFlat, List.flatMap_append, List.flatMap_cons, List.flatMap_nil,
      LitUnit.bytes]
    rw [List.append_nil, show (37 : Nat) :: [37] = [37] ++ [37] from rfl,
      ← List.append_assoc, List.getLastD_concat]

theorem pipeTriggers_litFlat (us : List LitUnit)
    (hlast : us.getLast? ≠ some (.lit 124)) :
    pipeTriggers (litFlat us) = false := by
  cases us using List.reverseRecOn with
  | nil => rfl
  | append_singleton us u =>
    have hgl : (litFlat (us ++ [u])).getLastD 0 ≠ 124 := by
      cases u with
      | lit b =>
        have hb : b ≠ 124 := by
          intro hb
          exact hlast (by rw [hb, List.getLast?_concat])
        rw [litFlat_getLastD]
        exact hb
      | esc =>
        rw [litFlat_getLastD]
        decide
    simp only [pipeTriggers]
    rw [if_neg (fun hc => hgl (by simpa using hc.2))]

theorem litPredict_length_le (buflen : Nat) :
    ∀ (us : List LitUnit) (wlen : Nat), (litPredict buflen wlen us).length ≤ buflen - wlen := by
  intro us
  induction us with
  | nil => intro wlen; simp [litPredict]
  | cons u us ih =>
    intro wlen
    cases u with
    | lit b =>
      simp only [litPredict]
      by_cases hfit : wlen + 1 < buflen
      · rw [if_pos hfit]
        have := ih (wlen + 1)
        simp
        omega
      · rw [if_neg hfit]
        simp
    | esc =>
      simp only [litPredict]
      by_cases hfit : wlen < buflen
      · rw [if_pos hfit]
        have := ih (wlen + 1)
        simp
        omega
      · rw [if_neg hfit]
        simp

theorem litPredict_all_fit (buflen : Nat) :
    ∀ (us : List LitUnit) (wlen : Nat), wlen + us.length + 1 ≤ buflen →
      litPredict buflen wlen us = litCollapse us := by
  intro us
  induction us with
  | nil => intro wlen _; simp [litPredict, litCollapse]
  | cons u us ih =>
    intro wlen hfit
    have hlen : wlen + 1 + us.length + 1 ≤ buflen := by
      simp [List.length_cons] at hfit
      omega
    cases u with
    | lit b =>
      simp only [litPredict, litCollapse, List.map_cons]
      rw [if_pos (by omega)]
      rw [ih (wlen + 1) hlen]
      rfl
    | esc =>
      simp only [litPredict, litCollapse, List.map_cons]
      rw [if_pos (by omega)]
      rw [ih (wlen + 1) hlen]
      rfl

theorem scanFmt_lit (env : FmtEnv) (rsub : Nat → Nat → List Nat → FmtFlags → List Nat)
    (buflen cols data : Nat) (flags : FmtFlags) (ifs els : List Nat) :
    ∀ (us : List LitUnit) (st : ScanSt) (lfuel : Nat),
      (∀ u ∈ us, litGoodB u = true) → us.length ≤ lfuel →
      scanFmt env rsub buflen cols data lfuel flags ifs els st (litFlat us)
        = st.acc ++ litPredict buflen st.wlen us := by
  intro us
  induction us with
  | nil =>
    intro st lfuel _ _
    simp only [litFlat, List.flatMap_nil, litPredict]
    rw [scanFmt_nil, List.append_nil]
  | cons u us ih =>
    intro st lfuel hg hfuel
    have ht : ∀ v ∈ us, litGoodB v = true := fun v hv => hg v (List.mem_cons_of_mem u hv)
    cases lfuel with
    | zero => simp at hfuel
    | succ lf =>
      have hlf : us.length ≤ lf := by simp at hfuel; omega
      cases u with
      | lit b =>
        have hb := hg (.lit b) (List.mem_cons_self _ _)
        simp only [litGoodB, Bool.and_eq_true, decide_eq_true_eq, bne_iff_ne, ne_eq] at hb
        obtain ⟨⟨⟨hb1, hb2⟩, hb3⟩, hb4⟩ := hb
        have hflat : litFlat (LitUnit.lit b :: us) = b :: litFlat us := by
          simp [litFlat, LitUnit.bytes]
        rw [hflat]
        by_cases hfit : st.wlen + 1 < buflen
        · rw [scanFmt_lit_step env rsub buflen cols data lf flags ifs els st b (litFlat us)
            (by omega) hb2 hb3 hb4 hfit]
          rw [ih _ lf ht hlf]
          simp [litPredict, hfit]
        · by_cases hw : st.wlen < buflen
          · rw [scanFmt_lit_stop env rsub buflen cols data lf flags ifs els st b (litFlat us)
              (by omega) hb2 hb3 hb4 hw hfit]
            simp [litPredict, hfit]
          · rw [scanFmt_wlen_stop env rsub buflen cols data lf flags ifs els st b (litFlat us) hw]
            simp only [litPredict]
            rw [if_neg (by omega)]
            rw [List.append_nil]
      | esc =>
        have hflat : litFlat (LitUnit.esc :: us) = 37 :: 37 :: litFlat us := by
          simp [litFlat, LitUnit.bytes]
        rw [hflat]
        by_cases hw : st.wlen < buflen
        · rw [scanFmt_esc_step env rsub buflen cols data lf flags ifs els st (litFlat us) hw]
          rw [ih _ lf ht hlf]
          simp [litPredict, hw]
        · rw [scanFmt_wlen_stop env rsub buflen cols data lf flags ifs els st 37
            (37 :: litFlat us) hw]
          simp only [litPredict]
          rw [if_neg hw]
          rw [List.append_nil]

/-- C7 (corrected).  The claim says a literal/`%%`-only template renders
as the collapsed text truncated to at most `capacity - 1` bytes.  The
literal branch of the scan (line 1382) requires `wlen + bytes < buflen`
strictly, so a literal byte is emitted only while at least two bytes of
the `capacity - 1` budget remain, while a `%%` escape (line 1045) needs
only one; when the collapsed text does not fit with a byte to spare, the
output is cut one byte shorter than the claim says (see the
counterexample: "ab" with capacity 3 renders as "a", not "ab").
Amended: the output is `litPredict` — scanning the units left to right
with budget `capacity - 1`, a literal unit is emitted while
`written + 1 < capacity - 1`, a `%%` unit while `written < capacity - 1`,
and the first unit that does not fit ends the scan; the output never
exceeds `capacity - 1` bytes (terminator inside the capacity), and it
equals the collapsed text whenever the collapsed length is at most
`capacity - 2`. -/
theorem c7_literal_render_amended (env : FmtEnv) (us : List LitUnit)
    (fuel cap col0 cols data : Nat) (flags : FmtFlags)
    (hg : ∀ u ∈ us, litGoodB u = true)
    (hlast : flags.noFilter = true ∨ us.getLast? ≠ some (.lit 124))
    (harrow : flags.arrowCursor = false)
    (hfuel : us.length + 1 ≤ fuel) :
    renderFmt fuel env cap col0 cols (litFlat us) data flags
      = litPredict (cap - 1) 0 us ∧
    (litPredict (cap - 1) 0 us).length ≤ cap - 1 ∧
    (us.length + 1 ≤ cap - 1 →
      renderFmt fuel env cap col0 cols (litFlat us) data flags = litCollapse us) := by
  have hcstr : cstr (litFlat us) = litFlat us :=
    cstr_of_not_mem _ (litFlat_not_mem_zero us hg)
  have hmain : renderFmt fuel env cap col0 cols (litFlat us) data flags
      = litPredict (cap - 1) 0 us := by
    cases fuel with
    | zero => simp at hfuel
    | succ f =>
      have hf : us.length ≤ f := by omega
      simp only [renderFmt, hcstr]
      rw [if_neg ?hpipe]
      case hpipe =>
        intro hc
        rcases hlast with hnf | hl
        · exact hc.1 hnf
        · rw [pipeTriggers_litFlat us hl] at hc
          exact absurd hc.2 (by simp)
      simp only [harrow, Bool.false_and, Bool.false_eq_true, if_false]
      rw [scanFmt_lit env _ (cap - 1) cols data flags env.ifsInit env.elsInit us
        ⟨[], 0, col0 + 0⟩ f hg hf]
      rfl
  refine ⟨hmain, ?_, ?_⟩
  · have := litPredict_length_le (cap - 1) us 0
    omega
  · intro hfit
    rw [hmain, litPredict_all_fit (cap - 1) us 0 (by omega)]

/-- C7 counterexample: the pure-literal template "ab" with capacity 3.
Its collapsed text "ab" has length 2 = capacity - 1, so the claim says
the render equals "ab"; the code emits only "a" (the literal branch
refuses the last budget byte). -/
theorem c7_counterexample :
    renderFmt 10 envA 3 0 80 [97, 98] 0 flags0 = [97] ∧
    litFlat [LitUnit.lit 97, LitUnit.lit 98] = [97, 98] ∧
    litCollapse [LitUnit.lit 97, LitUnit.lit 98] = [97, 98] ∧
    (litCollapse [LitUnit.lit 97, LitUnit.lit 98]).length ≤ 3 - 1 ∧
    [97] ≠ [97, 98] := by
  decide

/-- C7 witness: the amended theorem applied to the template "a%%" with
capacity 10. -/
theorem c7_witness :
    renderFmt 5 envA 10 0 80 (litFlat [LitUnit.lit 97, LitUnit.esc]) 0 flagsNF
      = litPredict 9 0 [LitUnit.lit 97, LitUnit.esc] :=
  (c7_literal_render_amended envA [LitUnit.lit 97, LitUnit.esc] 5 10 0 80 0 flagsNF
    (by decide) (Or.inl rfl) rfl (by decide)).1
